import Mathlib

/-!
Verification of the aoc-cleanup reconciliation and kill-decision engine
(`lib/aoc_cleanup/core.py`).  The Python source is shallowly embedded:
pure helper functions become Lean functions over `String`/`Int`/`List`,
the external world (process listing output, per-pid environment blocks,
working directories, lease files, layout evidence, telemetry files) is
passed in as explicit input data, and the single cleanup pass
`run_cleanup` becomes a pure function from those inputs to a result
record that also carries the would-be side effects (signals sent,
snapshot files removed).
-/

namespace AocCleanup

/-- ASCII whitespace test used to model the Python `str.strip` /
`str.split` behaviour (Python also strips some rarer unicode whitespace
characters; the inputs of this program are ASCII command output). -/
def isWs (c : Char) : Bool :=
  c = ' ' || c = '\t' || c = '\n' || c = '\r' || c = '\x0b' || c = '\x0c'

/-- Model of Python `str.strip()`: remove leading and trailing whitespace. -/
def pyStrip (s : String) : String :=
  ⟨((s.data.dropWhile isWs).reverse.dropWhile isWs).reverse⟩

/-- Model of Python `str.lower()` on ASCII text. -/
def lowerStr (s : String) : String :=
  ⟨s.data.map Char.toLower⟩

/-- Whether `needle` occurs as a contiguous substring of `hay`; models the
Python `needle in hay` test on strings. -/
def containsSub (hay needle : String) : Bool :=
  (hay.data.tails).any (fun t => needle.data.isPrefixOf t)

/-- Model of Python `os.path.basename`: the part after the last slash. -/
def basenameOf (s : String) : String :=
  ⟨(s.data.reverse.takeWhile (fun c => c ≠ '/')).reverse⟩

/-- Does `s` start with `p`?  Models Python `str.startswith`. -/
def startsWithStr (s p : String) : Bool :=
  p.data.isPrefixOf s.data

/-- Digits-with-underscores body of a Python integer literal: digits in
which single underscores may appear between two digits.  Returns the
accumulated value, `none` when the shape is invalid. -/
def pyDigitsAux : List Char → Nat → Option Nat
  | [], acc => some acc
  | '_' :: c :: rest, acc =>
    if c.isDigit then pyDigitsAux rest (acc * 10 + (c.toNat - '0'.toNat)) else none
  | '_' :: [], _ => none
  | c :: rest, acc =>
    if c.isDigit then pyDigitsAux rest (acc * 10 + (c.toNat - '0'.toNat)) else none

/-- Model of Python `int(s)` for strings: optional surrounding whitespace,
an optional sign, then ASCII digits with optional single underscores
between digits.  Returns `none` where Python raises `ValueError`. -/
def pyInt (s : String) : Option Int :=
  let t := (pyStrip s).data
  match t with
  | [] => none
  | '+' :: rest =>
    match rest with
    | [] => none
    | c :: _ =>
      if c.isDigit then (pyDigitsAux rest 0).map Int.ofNat else none
  | '-' :: rest =>
    match rest with
    | [] => none
    | c :: _ =>
      if c.isDigit then (pyDigitsAux rest 0).map (fun n => -(Int.ofNat n)) else none
  | c :: _ =>
    if c.isDigit then (pyDigitsAux t 0).map Int.ofNat else none

/-- Model of `env_int(name, default, minimum)` from `core.py`
(lines 126-137), applied to the raw value of the environment variable.
The second component records whether the warning line was printed.
An empty (stripped) value silently yields the default; a value that
fails integer parsing warns and yields the default; a parsed value below
the minimum silently yields the minimum. -/
def env_int (raw : String) (default minimum : Int) : Int × Bool :=
  let r := pyStrip raw
  if r = "" then (default, false)
  else
    match pyInt r with
    | none => (default, true)
    | some v => if v < minimum then (minimum, false) else (v, false)

/-- Split a string into the nonempty tokens separated by runs of
whitespace or commas; models `re.split(r"[\s,]+", raw)` followed by
dropping empty pieces, as in `parse_session_filter`. -/
def splitWsCommaAux : List Char → List Char → List String
  | [], cur =>
    if cur = [] then [] else [⟨cur.reverse⟩]
  | c :: rest, cur =>
    if isWs c || c = ',' then
      if cur = [] then splitWsCommaAux rest []
      else ⟨cur.reverse⟩ :: splitWsCommaAux rest []
    else splitWsCommaAux rest (c :: cur)

def splitWsComma (s : String) : List String :=
  splitWsCommaAux s.data []

/-- Model of `parse_session_filter` (`core.py` lines 104-118) applied to
the raw `AOC_CLEANUP_SESSIONS` value and the current session name:
`none` means no filter, `some l` the set of selected session names. -/
def parse_session_filter (raw curr : String) : Option (List String) :=
  let r := pyStrip raw
  if r = "" then none
  else
    let rl := lowerStr r
    if rl = "current" || rl = "self" || rl = "this" then
      if curr ≠ "" then some [curr] else none
    else some (splitWsComma r)

/-- Model of Python `args.split(" ", 1)[0]`: the characters before the
first literal space. -/
def pySplitSpaceFirst (s : String) : String :=
  ⟨s.data.takeWhile (fun c => c ≠ ' ')⟩

/-- Does `s` end with `p`?  Models Python `str.endswith`. -/
def endsWithStr (s p : String) : Bool :=
  p.data.isSuffixOf s.data

/-- Model of the Python slice `s[:-n]`. -/
def dropRightStr (s : String) (n : Nat) : String :=
  ⟨s.data.take (s.data.length - n)⟩

/-- Scanner state for the first token of `shlex.split` in POSIX mode:
outside quotes, inside single quotes, inside double quotes. -/
inductive ShState
  | plain
  | inSingle
  | inDouble
deriving DecidableEq

/-- First token of `shlex.split(args)` (POSIX mode), as used by
`proc_cmd` (`core.py` lines 560-569).  The scanner handles whitespace
separation, single quotes, double quotes (inside which a backslash
escapes only a double quote or a backslash), and backslash escapes
outside quotes.  `none` models the `ValueError` raised on an
unterminated quote or a trailing escape character. -/
def shlexAux : ShState → List Char → List Char → Option (List Char)
  | ShState.plain, [], acc => some acc
  | ShState.plain, c :: rest, acc =>
    if isWs c then some acc
    else if c = '\\' then
      match rest with
      | [] => none
      | d :: rest2 => shlexAux ShState.plain rest2 (d :: acc)
    else if c = '\'' then shlexAux ShState.inSingle rest acc
    else if c = '"' then shlexAux ShState.inDouble rest acc
    else shlexAux ShState.plain rest (c :: acc)
  | ShState.inSingle, [], _ => none
  | ShState.inSingle, c :: rest, acc =>
    if c = '\'' then shlexAux ShState.plain rest acc
    else shlexAux ShState.inSingle rest (c :: acc)
  | ShState.inDouble, [], _ => none
  | ShState.inDouble, c :: rest, acc =>
    if c = '"' then shlexAux ShState.plain rest acc
    else if c = '\\' then
      match rest with
      | [] => none
      | d :: rest2 =>
        if d = '"' || d = '\\' then shlexAux ShState.inDouble rest2 (d :: acc)
        else shlexAux ShState.inDouble rest2 (d :: '\\' :: acc)
    else shlexAux ShState.inDouble rest (c :: acc)

/-- First token of `shlex.split(s)`: `none` models a `ValueError`,
`some none` an empty token list (all-whitespace input), `some (some t)`
a first token `t`. -/
def shlexFirst (s : String) : Option (Option String) :=
  let t := s.data.dropWhile isWs
  match t with
  | [] => some none
  | _ => (shlexAux ShState.plain t []).map (fun cs => some ⟨cs.reverse⟩)

/-- Model of `proc_cmd(args, comm)` (`core.py` lines 560-569): the first
shlex token of the argument string, falling back to the text before the
first space when shlex fails or yields nothing, and to the command name
when the argument string is empty. -/
def proc_cmd (args comm : String) : String :=
  if args ≠ "" then
    match shlexFirst args with
    | some (some t) => t
    | some none => pySplitSpaceFirst args
    | none => pySplitSpaceFirst args
  else comm

/-- The fixed alternatives of `AGENT_PATTERN` (`core.py` line 20). -/
def agentLits : List String :=
  ["opencode", "open-code", "codex", "gemini", "claude", "kimi",
   "pi-agent", "pi_agent", "aoc-pi"]

/-- Model of `AGENT_NAME_PATTERN.search(s) is not None`: the compiled
pattern is a case-insensitive alternation of the fixed literals of
`AGENT_PATTERN`, optionally extended by the operator-configured
`AOC_AGENT_PATTERN`; the extension is modeled by the abstract predicate
`extra` (constantly false when the variable is unset). -/
def agentNameMatch (extra : String → Bool) (s : String) : Bool :=
  agentLits.any (fun lit => containsSub (lowerStr s) lit) || extra s

/-- `AGENT_BINARIES` (`core.py` lines 44-61). -/
def AGENT_BINARIES : List String :=
  ["opencode", "open-code", "codex", "gemini", "claude", "kimi", "pi",
   "pi-agent", "pi_agent", "aoc-agent", "aoc-agent-run", "aoc-oc",
   "aoc-cc", "aoc-gemini", "aoc-kimi", "aoc-pi"]

/-- `PROTECTED_COMMANDS` (`core.py` lines 23-35). -/
def PROTECTED_COMMANDS : List String :=
  ["aoc-session-watch", "aoc-cleanup", "aoc-init", "aoc-launch",
   "aoc-align", "aoc-doctor", "aoc-mem", "aoc-tasks", "aoc-widget",
   "aoc-clock", "aoc-sys"]

/-- Model of `is_agent_process(args, comm)` (`core.py` lines 205-218). -/
def is_agent_process (extra : String → Bool) (args comm : String) : Bool :=
  let cmd := proc_cmd args comm
  let base := if cmd ≠ "" then basenameOf cmd else ""
  if AGENT_BINARIES.contains base || startsWithStr base "opencode"
      || startsWithStr base "pi-agent" then true
  else if comm == "node" && containsSub args "opencode" then true
  else if agentNameMatch extra args || agentNameMatch extra comm then true
  else false

/-- The protected-command allowlist test of the candidate loop
(`core.py` line 754): a protected name occurring as a substring of the
command name or the argument string. -/
def protectedHit (comm args : String) : Bool :=
  PROTECTED_COMMANDS.any (fun p => containsSub comm p || containsSub args p)

/-- The searching-process exclusion of the candidate loop
(`core.py` line 757). -/
def searchToolHit (args : String) : Bool :=
  containsSub args " grep " || containsSub args " pgrep " || containsSub args " ps "

/-- Classification kind of an agent candidate (`core.py` lines 763-771). -/
inductive Kind
  | agent_bin
  | agent_node
  | other
deriving DecidableEq, Repr

/-- One row of the parsed process table (`core.py` lines 598-604). -/
structure ProcInfo where
  ppid : Int
  etimes : Option Int
  tty : String
  comm : String
  args : String
deriving DecidableEq, Repr

/-- An enriched agent candidate (`core.py` lines 792-810).  The unused
`safe` entry of the Python dict is omitted; every other entry is a
field. -/
structure Candidate where
  pid : Int
  ppid : Int
  etimes : Option Int
  args : String
  comm : String
  cwd : String
  kind : Kind
  session : String
  paneId : String
  paneInstanceId : String
  paneLeaseFile : String
  paneInstanceMatch : Bool
  tty : String
  hasTty : Bool
deriving DecidableEq, Repr

instance : Inhabited Candidate :=
  ⟨{ pid := 0, ppid := 0, etimes := none, args := "", comm := "", cwd := "",
     kind := Kind.other, session := "", paneId := "", paneInstanceId := "",
     paneLeaseFile := "", paneInstanceMatch := true, tty := "", hasTty := false }⟩

/-- Dictionary lookup in a per-pid environment block; a duplicate key in
the block keeps the last value, as repeated `env[k] = v` assignments do
in `proc_env` (`core.py` lines 424-436). -/
def envGet (env : List (String × String)) (k : String) : String :=
  match env.reverse.find? (fun pr => pr.1 == k) with
  | some pr => pr.2
  | none => ""

/-- First nonempty string of a list; models a Python `a or b or c` chain
over strings. -/
def firstNonempty : List String → String
  | [] => ""
  | s :: rest => if s ≠ "" then s else firstNonempty rest

/-- The session name read from an environment block (`core.py`
lines 773-778, 444-448, 506-511). -/
def sessionEnvOf (env : List (String × String)) : String :=
  firstNonempty [envGet env "AOC_SESSION_ID", envGet env "ZELLIJ_SESSION_NAME",
                 envGet env "ZELLIJ_SESSION"]

/-- The pane id read from an environment block (`core.py` lines 779,
512-514). -/
def paneEnvOf (env : List (String × String)) : String :=
  firstNonempty [envGet env "AOC_PANE_ID", envGet env "ZELLIJ_PANE_ID"]

/-- One iteration of the candidate-classification loop (`core.py`
lines 749-810) for a single table entry.  `envOf` is the parsed
environment block per pid (empty on read failure), `cwdOf` the
best-effort working directory (empty on failure), and `leaseRead` the
raw first line of a lease file (`none` models an unreadable file). -/
def mkCandidate (extra : String → Bool) (envOf : Int → List (String × String))
    (cwdOf : Int → String) (leaseRead : String → Option String)
    (pid : Int) (info : ProcInfo) : Option Candidate :=
  if is_agent_process extra info.args info.comm then
    if protectedHit info.comm info.args then none
    else if searchToolHit info.args then none
    else
      let cwd := cwdOf pid
      let cmd := proc_cmd info.args info.comm
      let base := if cmd ≠ "" then basenameOf cmd else ""
      let kind :=
        if AGENT_BINARIES.contains base || startsWithStr base "opencode"
            || startsWithStr base "pi-agent" then Kind.agent_bin
        else if info.comm == "node" && containsSub info.args "opencode" then Kind.agent_node
        else Kind.other
      let env := envOf pid
      let session := sessionEnvOf env
      let paneId := paneEnvOf env
      let instId := envGet env "AOC_PANE_INSTANCE_ID"
      let leaseFile := envGet env "AOC_PANE_LEASE_FILE"
      let instMatch :=
        if instId ≠ "" && leaseFile ≠ "" then
          match leaseRead leaseFile with
          | some raw => pyStrip raw == instId
          | none => false
        else true
      some { pid := pid, ppid := info.ppid, etimes := info.etimes,
             args := info.args, comm := info.comm, cwd := cwd, kind := kind,
             session := session, paneId := paneId, paneInstanceId := instId,
             paneLeaseFile := leaseFile, paneInstanceMatch := instMatch,
             tty := info.tty, hasTty := info.tty ≠ "" && info.tty ≠ "?" }
  else none

/-- Model of Python `line.split(None, n)`: split on runs of whitespace,
at most `n` splits, the remainder keeping its internal and trailing
whitespace. -/
def splitWsMax : Nat → List Char → List (List Char)
  | n, cs0 =>
    let cs := cs0.dropWhile isWs
    match cs with
    | [] => []
    | _ =>
      match n with
      | 0 => [cs]
      | m + 1 =>
        cs.takeWhile (fun c => !isWs c) ::
          splitWsMax m (cs.dropWhile (fun c => !isWs c))

def splitLinesAux : List Char → List Char → List String
  | [], cur => [⟨cur.reverse⟩]
  | c :: rest, cur =>
    if c = '\n' then ⟨cur.reverse⟩ :: splitLinesAux rest []
    else splitLinesAux rest (c :: cur)

/-- Model of `str.splitlines()` on the stripped, newline-separated
output of the external listing commands (which contains no lone carriage
returns and, once stripped, no trailing newline). -/
def splitLinesStr (s : String) : List String :=
  if s = "" then [] else splitLinesAux s.data []

/-- Parse one data row of the process listing (`core.py` lines 583-607):
six whitespace-separated fields, rows with fewer fields or non-integer
pid/ppid dropped, a non-integer elapsed-time field parsed as `none`. -/
def parsePsLine (line : String) : Option (Int × ProcInfo) :=
  let parts := (splitWsMax 5 (pyStrip line).data).map (fun cs => (⟨cs⟩ : String))
  match parts with
  | [p0, p1, p2, p3, p4, p5] =>
    match pyInt p0, pyInt p1 with
    | some pid, some ppid =>
      some (pid, { ppid := ppid, etimes := pyInt p2, tty := p3, comm := p4, args := p5 })
    | _, _ => none
  | _ => none

/-- Python dict assignment on an association list: an existing key keeps
its position and receives the new value, a new key is appended. -/
def dictUpd (d : List (Int × ProcInfo)) (k : Int) (v : ProcInfo) : List (Int × ProcInfo) :=
  match d with
  | [] => [(k, v)]
  | (k0, v0) :: rest =>
    if k0 = k then (k0, v) :: rest else (k0, v0) :: dictUpd rest k v

/-- Build the pid-indexed table with Python dict semantics from parsed
rows. -/
def buildDict (rows : List (Int × ProcInfo)) : List (Int × ProcInfo) :=
  rows.foldl (fun d pr => dictUpd d pr.1 pr.2) []

/-- Model of `get_process_map()` (`core.py` lines 572-609): `none` input
models the `CalledProcessError` of the external listing and yields empty
maps; otherwise the header row is skipped and each remaining row parsed.
The second component is the parent-to-child adjacency as the list of
(ppid, pid) pairs appended per parsed row. -/
def get_process_map (o : Option String) : List (Int × ProcInfo) × List (Int × Int) :=
  match o with
  | none => ([], [])
  | some out =>
    let lines := (splitLinesStr (pyStrip out)).drop 1
    let rows := lines.filterMap parsePsLine
    (buildDict rows, rows.map (fun pr => (pr.2.ppid, pr.1)))

/-- Children of a pid in the adjacency list (`children[curr]`). -/
def childrenOf (childPairs : List (Int × Int)) (p : Int) : List Int :=
  childPairs.filterMap (fun pr => if pr.1 = p then some pr.2 else none)

/-- One closure step of `get_descendants`: add every child of an already
reached pid. -/
def descStep (childPairs : List (Int × Int)) (acc : Finset Int) : Finset Int :=
  acc ∪ (childPairs.filterMap (fun pr => if pr.1 ∈ acc then some pr.2 else none)).toFinset

/-- Model of `get_descendants(roots, children_map)` (`core.py`
lines 612-621): the worklist loop computes the reachability closure of
the child relation; iterating the inflationary step once more often than
there are adjacency entries reaches the same fixed point, because every
step that changes the set adds at least one pid occurring as a child in
the adjacency list. -/
def getDescendants (childPairs : List (Int × Int)) (roots : Finset Int) : Finset Int :=
  Nat.iterate (descStep childPairs) (childPairs.length + 1) roots

/-- Table lookup, `pid in processes` / `processes[pid]` combined. -/
def lookupProc (procs : List (Int × ProcInfo)) (pid : Int) : Option ProcInfo :=
  (procs.find? (fun pr => pr.1 == pid)).map (fun pr => pr.2)

/-- The visible ancestor chain of a pid: the pids visited by
`while curr in processes: ...; curr = processes[curr]["ppid"]`
(`core.py` lines 701-704), cut off by the fuel.  With fuel
`procs.length + 1` the fuel is never the reason the list ends on any
input on which the source loop terminates, since a terminating run of
the loop visits each table key at most once. -/
def chainList (procs : List (Int × ProcInfo)) : Nat → Int → List Int
  | 0, _ => []
  | fuel + 1, curr =>
    match lookupProc procs curr with
    | none => []
    | some info => curr :: chainList procs fuel info.ppid

/-- The ancestor-adding loop of `run_cleanup` (`core.py` lines 700-704):
starting from the descendants of the session-manager roots, add every
pid of the visible ancestor chain of the tool pid.  Fuel as in
`chainList`; on every input on which the source loop terminates, the
loop exits because the current pid left the table, exactly as here. -/
def ancestorWalk (procs : List (Int × ProcInfo)) : Nat → Int → Finset Int → Finset Int
  | 0, _, acc => acc
  | fuel + 1, curr, acc =>
    match lookupProc procs curr with
    | none => acc
    | some info => ancestorWalk procs fuel info.ppid (insert curr acc)

/-- Character class of the socket-name group in the tmux socket pattern
`tmux\s+.*-(L|S)\s*([a-zA-Z0-9_\-\./]+)` (`core.py` line 626). -/
def isSockChar (c : Char) : Bool :=
  c.isAlphanum || c = '_' || c = '-' || c = '.' || c = '/'

/-- The `\s*([a-zA-Z0-9_\-\./]+)` tail of the socket pattern at a given
position: skip whitespace, take a nonempty run of socket characters. -/
def sockRunAt (cs : List Char) : Option String :=
  let run := (cs.dropWhile isWs).takeWhile isSockChar
  if run.isEmpty then none else some ⟨run⟩

/-- Find the socket name for the `.*-(L|S)\s*(...)` part: the greedy
`.*` makes the regex engine prefer the rightmost `-L`/`-S` occurrence
that still lets the tail match, so later occurrences win. -/
def scanLS : List Char → Option String
  | [] => none
  | c :: rest =>
    match scanLS rest with
    | some s => some s
    | none =>
      if c = '-' then
        match rest with
        | d :: rest2 => if d = 'L' || d = 'S' then sockRunAt rest2 else none
        | [] => none
      else none

/-- Model of `socket_re.search(args)` for the pattern of `core.py`
line 626: the match must start at an occurrence of `tmux` followed by a
whitespace character; occurrences are tried left to right. -/
def scanTmuxAux : List Char → Option String
  | [] => none
  | c :: rest =>
    (if c = 't' && "mux".data.isPrefixOf rest then
      match rest.drop 3 with
      | w :: rest2 =>
        if isWs w then
          match scanLS rest2 with
          | some s => some s
          | none => scanTmuxAux rest
        else scanTmuxAux rest
      | [] => scanTmuxAux rest
    else scanTmuxAux rest)

/-- Model of `find_safe_tmux_sockets(safe_pids, processes)` (`core.py`
lines 624-637): iterating over the safe pids present in the table is
modeled by filtering the table against the safe set. -/
def find_safe_tmux_sockets (safe : Finset Int) (procs : List (Int × ProcInfo)) : Finset String :=
  (procs.filterMap (fun pr =>
    if pr.1 ∈ safe then
      if containsSub pr.2.args "tmux" then scanTmuxAux pr.2.args.data else none
    else none)).toFinset

/-- Model of `find_tmux_servers_for_sockets(sockets, processes)`
(`core.py` lines 640-650). -/
def find_tmux_servers_for_sockets (socks : Finset String) (procs : List (Int × ProcInfo)) : Finset Int :=
  if socks = ∅ then ∅
  else (procs.filterMap (fun pr =>
    if pr.2.comm == "tmux" && containsSub pr.2.args " -D" then
      match scanTmuxAux pr.2.args.data with
      | some s => if s ∈ socks then some pr.1 else none
      | none => none
    else none)).toFinset

/-- Model of `cwd_matches(proc_path, active_cwd)` (`core.py`
lines 541-546). -/
def cwd_matches (procPath activeCwd : String) : Bool :=
  if procPath = "" || activeCwd = "" then false
  else if startsWithStr activeCwd "/" then
    procPath == activeCwd || startsWithStr procPath (activeCwd ++ "/")
  else procPath == activeCwd || endsWithStr procPath ("/" ++ activeCwd)

/-- Model of `cmd_matches(proc_cmd, active_cmd)` (`core.py`
lines 549-557). -/
def cmd_matches (procCmd activeCmd : String) : Bool :=
  if procCmd = "" || activeCmd = "" then false
  else if procCmd == activeCmd then true
  else basenameOf procCmd == basenameOf activeCmd

/-- Lookup in the per-session active-pane index. -/
def lookupAssoc (m : List (String × List String)) (k : String) : Option (List String) :=
  (m.find? (fun pr => pr.1 == k)).map (fun pr => pr.2)

/-- Model of `proc_matches_active_pane(proc, active_panes_by_session)`
(`core.py` lines 454-462): both identity components are stripped, the
session must index a nonempty pane set containing the pane id. -/
def proc_matches_active_pane (c : Candidate) (panes : List (String × List String)) : Bool :=
  let s := pyStrip c.session
  let p := pyStrip c.paneId
  if s = "" || p = "" then false
  else
    match lookupAssoc panes s with
    | none => false
    | some l => if l.isEmpty then false else l.contains p

/-- Model of `proc_has_active_session(pid, active_sessions)` (`core.py`
lines 440-451). -/
def proc_has_active_session (envOf : Int → List (String × String)) (pid : Int)
    (activeSessions : List String) : Bool :=
  if activeSessions.isEmpty then false
  else
    let s := sessionEnvOf (envOf pid)
    if s = "" then false else activeSessions.contains s

/-- Kind priority of `root_rank` (`core.py` lines 815-824):
`agent_node` before `agent_bin` before `other`. -/
def kindRank : Kind → Nat
  | Kind.agent_node => 0
  | Kind.agent_bin => 1
  | Kind.other => 2

/-- The `root_rank` sort key: terminal-attached first, then kind
priority, then higher pid first (encoded as the negated pid). -/
def rankTriple (c : Candidate) : Nat × Nat × Int :=
  (if c.hasTty then 0 else 1, kindRank c.kind, -c.pid)

/-- Lexicographic comparison of `root_rank` keys, as Python tuple
comparison orders them. -/
def tripleLe (a b : Nat × Nat × Int) : Bool :=
  a.1 < b.1 || (a.1 = b.1 && (a.2.1 < b.2.1 || (a.2.1 = b.2.1 && a.2.2 ≤ b.2.2)))

def rankLe (a b : Candidate) : Bool :=
  tripleLe (rankTriple a) (rankTriple b)

/-!
Python `list.sort` is a stable sort by the given key.  A stable sort
with respect to a total, transitive comparison has a unique result, so
the structurally recursive stable `List.insertionSort` models it
exactly (Mathlib `orderedInsert` places an element before the first
member it ties with, i.e. keeps earlier elements of equal key first).
-/

/-- `root_rank` as a decidable relation for sorting. -/
def rankLeR (a b : Candidate) : Prop := rankLe a b = true

instance : DecidableRel rankLeR :=
  fun a b => inferInstanceAs (Decidable (rankLe a b = true))

/-- Descending-pid comparison used by strategies 2 and 3
(`sort(key=lambda p: p["pid"], reverse=True)`). -/
def pidGeR (a b : Candidate) : Prop := b.pid ≤ a.pid

instance : DecidableRel pidGeR :=
  fun a b => inferInstanceAs (Decidable (b.pid ≤ a.pid))

instance : IsTotal Candidate pidGeR := ⟨fun a b => le_total b.pid a.pid⟩

instance : IsTrans Candidate pidGeR := ⟨fun _ _ _ h1 h2 => le_trans h2 h1⟩

/-- Append a candidate to its (session, pane) group, creating the group
at the end on first sight; models `defaultdict(list)` with insertion
order. -/
def addGroup (gs : List ((String × String) × List Candidate)) (k : String × String)
    (c : Candidate) : List ((String × String) × List Candidate) :=
  match gs with
  | [] => [(k, [c])]
  | (k0, l) :: rest =>
    if k0 = k then (k0, l ++ [c]) :: rest else (k0, l) :: addGroup rest k c

/-- The grouping loop of the pane-strict strategy (`core.py`
lines 827-835). -/
def paneGroups (cands : List Candidate) (activeSessions : List String) :
    List ((String × String) × List Candidate) :=
  cands.foldl (fun gs c =>
    if c.paneId = "" then gs
    else if !activeSessions.isEmpty && c.session ≠ "" && !activeSessions.contains c.session then gs
    else addGroup gs (c.session, c.paneId) c) []

/-- A selected per-group root together with the group-level flags
(`core.py` lines 840-857). -/
structure SelRoot where
  proc : Candidate
  hasTty : Bool
  hasSession : Bool
deriving DecidableEq

/-- Root selection within one pane group (`core.py` lines 841-857):
prefer terminal-attached members, else members whose parent is outside
the group, else all; then the best by `root_rank` (Python `list.sort`
is stable, as is `mergeSort`). -/
def selectRoot (g : List Candidate) : SelRoot :=
  let preferredPool0 := g.filter (fun c => c.hasTty)
  let pool :=
    if !preferredPool0.isEmpty then preferredPool0
    else
      let gpids := g.map (fun c => c.pid)
      let roots := g.filter (fun p => !gpids.contains p.ppid)
      if !roots.isEmpty then roots else g
  ((List.insertionSort rankLeR pool).headI)
    |> (fun best =>
      { proc := best, hasTty := g.any (fun p => p.hasTty),
        hasSession := g.any (fun p => p.session ≠ "") })

/-- The truncation sort key of the pane-strict strategy (`core.py`
lines 865-871): groups without terminal last, then groups without
session, then `root_rank`. -/
def selLe (a b : SelRoot) : Bool :=
  let a1 : Nat := if a.hasTty then 0 else 1
  let b1 : Nat := if b.hasTty then 0 else 1
  let a2 : Nat := if a.hasSession then 0 else 1
  let b2 : Nat := if b.hasSession then 0 else 1
  a1 < b1 || (a1 = b1 && (a2 < b2 || (a2 = b2 && tripleLe (rankTriple a.proc) (rankTriple b.proc))))

def selLeR (a b : SelRoot) : Prop := selLe a b = true

instance : DecidableRel selLeR :=
  fun a b => inferInstanceAs (Decidable (selLe a b = true))

/-- Strategy 1, pane-strict selection (`core.py` lines 826-874),
returning the kept pids and the `used_pane_selection` flag. -/
def strategyPane (cands : List Candidate) (activeSessions : List String)
    (expectedCwds expectedIds : List (String × Nat)) : Finset Int × Bool :=
  let groups := paneGroups cands activeSessions
  if groups.isEmpty then (∅, false)
  else
    let roots := groups.map (fun pr => selectRoot pr.2)
    let expectedTotal : Nat :=
      if !expectedCwds.isEmpty then (expectedCwds.map (fun pr => pr.2)).sum
      else if !expectedIds.isEmpty then (expectedIds.map (fun pr => pr.2)).sum
      else 0
    let roots2 :=
      if expectedTotal ≠ 0 && roots.length > expectedTotal then
        (List.insertionSort selLeR roots).take expectedTotal
      else roots
    ((roots2.map (fun r => r.proc.pid)).toFinset, true)

/-- The candidates gathered for one directory hint (`core.py`
lines 878-883). -/
def dirPool (cands : List Candidate) (hint : String) : List Candidate :=
  cands.filter (fun c => cwd_matches c.cwd hint)

/-- The preference chain of strategies 2 and 3 (`core.py` lines 889-894
and 910-915): sort by descending pid, then restrict to `agent_bin`
members when any exist, else to `agent_node` members when any exist. -/
def preferPool (pool : List Candidate) : List Candidate :=
  let sorted := List.insertionSort pidGeR pool
  let bins := sorted.filter (fun c => c.kind == Kind.agent_bin)
  if !bins.isEmpty then bins
  else
    let nodes := sorted.filter (fun c => c.kind == Kind.agent_node)
    if !nodes.isEmpty then nodes else sorted

/-- The pids kept on behalf of one directory hint with expected count
`count` (`core.py` lines 885-897). -/
def dirKeepFor (cands : List Candidate) (hint : String) (count : Nat) : List Candidate :=
  (preferPool (dirPool cands hint)).take count

/-- Strategy 2, directory-count selection (`core.py` lines 876-897). -/
def strategyDirs (cands : List Candidate) (expectedCwds : List (String × Nat)) : Finset Int :=
  expectedCwds.foldl
    (fun acc pr => acc ∪ ((dirKeepFor cands pr.1 pr.2).map (fun c => c.pid)).toFinset) ∅

/-- The candidates gathered for one identity (`core.py` lines 899-905):
nonempty working-directory basename equal to the identity. -/
def idPool (cands : List Candidate) (agentId : String) : List Candidate :=
  cands.filter (fun c =>
    let base := if c.cwd ≠ "" then basenameOf c.cwd else ""
    base ≠ "" && base == agentId)

def idKeepFor (cands : List Candidate) (agentId : String) (count : Nat) : List Candidate :=
  (preferPool (idPool cands agentId)).take count

/-- Strategy 3, identity-count selection (`core.py` lines 898-918). -/
def strategyIds (cands : List Candidate) (expectedIds : List (String × Nat)) : Finset Int :=
  expectedIds.foldl
    (fun acc pr => acc ∪ ((idKeepFor cands pr.1 pr.2).map (fun c => c.pid)).toFinset) ∅

/-- The kept pid set of the three-tier selection (`core.py`
lines 812-918): the pane-strict strategy only under strict mode with
layout signals; strategy 2 when directory counters exist and pane
selection was not used; strategy 3 when only identity counters exist. -/
def keepPidsSel (paneStrict paneLayoutSignals : Bool) (cands : List Candidate)
    (activeSessions : List String) (expectedCwds expectedIds : List (String × Nat)) : Finset Int :=
  let pr := if paneStrict && paneLayoutSignals
    then strategyPane cands activeSessions expectedCwds expectedIds
    else (∅, false)
  if !expectedCwds.isEmpty && !pr.2 then pr.1 ∪ strategyDirs cands expectedCwds
  else if !expectedIds.isEmpty && !pr.2 then pr.1 ∪ strategyIds cands expectedIds
  else pr.1

/-- `keep_tree` (`core.py` lines 920-922). -/
def keepTreeOfSets (childPairs : List (Int × Int)) (keepPids : Finset Int) : Finset Int :=
  if keepPids = ∅ then ∅ else getDescendants childPairs keepPids

/-- Everything the per-candidate kill decision (`core.py` lines 927-991)
reads. -/
structure Ctx where
  filterIsSome : Bool
  activeSessions : List String
  activePanes : List (String × List String)
  paneStrict : Bool
  paneLayoutSignals : Bool
  safePids : Finset Int
  keepTree : Finset Int
  haveActiveSignals : Bool
  activeCommands : List String
  agentCwds : List String
  minAge : Int
  envOf : Int → List (String × String)

/-- Outcome of one iteration of the kill-decision loop: silently
retained, appended to the kill list, or counted in one of the two skip
counters. -/
inductive Outcome
  | retain
  | kill
  | young
  | paneMiss
deriving DecidableEq, Repr

/-- `proc_age is None or proc_age < min_process_age_secs`. -/
def ageBelow (et : Option Int) (m : Int) : Bool :=
  match et with
  | none => true
  | some a => a < m

/-- The rule-8 retention test (`core.py` lines 971-983): under active
signals and no pane-strict override, a command hit (exact or basename
match against an active command, or the active command occurring inside
the argument string), or — only for candidates without both session and
pane identity — a directory hit. -/
def activeHit (ctx : Ctx) (c : Candidate) : Bool :=
  ctx.haveActiveSignals && !(ctx.paneStrict && ctx.paneLayoutSignals) &&
    (ctx.activeCommands.any
        (fun cmd => cmd_matches (proc_cmd c.args c.comm) cmd || containsSub c.args cmd)
     || (!(c.session ≠ "" && c.paneId ≠ "")
          && ctx.agentCwds.any (fun ac => cwd_matches c.cwd ac)))

/-- The per-candidate rule chain of the kill-decision loop (`core.py`
lines 927-991), first matching rule wins: excluded-session filter,
lease-instance mismatch, live-pane match, pane miss, safe tree, keep
tree, active environment session, rule-8 hints, minimum age, kill. -/
def decideOutcome (ctx : Ctx) (c : Candidate) : Outcome :=
  if ctx.filterIsSome && c.session ≠ "" && !ctx.activeSessions.contains c.session then
    Outcome.retain
  else if c.paneInstanceId ≠ "" && !c.paneInstanceMatch then Outcome.kill
  else if proc_matches_active_pane c ctx.activePanes then Outcome.retain
  else if c.session ≠ "" && c.paneId ≠ "" && (lookupAssoc ctx.activePanes c.session).isSome then
    (if ctx.paneStrict && ctx.paneLayoutSignals then Outcome.kill
     else if ctx.minAge ≤ 0 then Outcome.paneMiss
     else if ageBelow c.etimes ctx.minAge then Outcome.paneMiss
     else Outcome.kill)
  else if decide (c.pid ∈ ctx.safePids) && !(ctx.paneStrict && ctx.paneLayoutSignals)
      && (!ctx.filterIsSome || proc_has_active_session ctx.envOf c.pid ctx.activeSessions) then
    Outcome.retain
  else if c.pid ∈ ctx.keepTree then Outcome.retain
  else if proc_has_active_session ctx.envOf c.pid ctx.activeSessions
      && !(ctx.paneStrict && ctx.paneLayoutSignals) then Outcome.retain
  else if activeHit ctx c then Outcome.retain
  else if 0 < ctx.minAge && ageBelow c.etimes ctx.minAge then Outcome.young
  else Outcome.kill

/-- The kill list produced by the decision loop: each candidate, in
table order, contributes its (pid, args) pair when its outcome is
kill. -/
def killEntries (ctx : Ctx) (cands : List Candidate) : List (Int × String) :=
  cands.filterMap (fun c =>
    if decideOutcome ctx c = Outcome.kill then some (c.pid, c.args) else none)

/-- One telemetry snapshot file: its name and the value of
`int(snapshot.get("pid") or 0)`, where `none` models any exception while
opening, JSON-parsing, or int-converting the file. -/
structure SnapFile where
  name : String
  jsonPid : Option Int
deriving DecidableEq, Repr

/-- The removal-eligible snapshot files of `prune_runtime_snapshots`
(`core.py` lines 474-531), in order: every file the pruner decides to
remove (or, in dry-run, to count).  The telemetry tree is given as the
session directories of the root with their file lists.  The outcome of
the `os.remove` attempt on each eligible file is a separate input
(`Inputs.removeOk`): in execute mode a removal that raises
(`FileNotFoundError` or any other exception, lines 521-530) is neither
counted nor performed. -/
def pruneEligible (activePanes : List (String × List String)) (activeSessions : List String)
    (filterActive : Bool) (envOf : Int → List (String × String))
    (telemetry : List (String × List SnapFile)) : List (String × String) :=
  telemetry.foldl (fun acc pr =>
    let sessionName := pr.1
    if filterActive && !activeSessions.isEmpty && !activeSessions.contains sessionName then acc
    else
      let allowed := (lookupAssoc activePanes sessionName).getD []
      acc ++ pr.2.filterMap (fun f =>
        if !endsWithStr f.name ".json" then none
        else
          let paneId := pyStrip (dropRightStr f.name 5)
          if paneId ≠ "" && allowed.contains paneId then none
          else
            let keep :=
              match f.jsonPid with
              | some pid =>
                if 0 < pid then
                  let env := envOf pid
                  sessionEnvOf env == sessionName && paneEnvOf env == paneId
                else false
              | none => false
            if keep then none else some (sessionName, f.name))) []

/-- The inputs of one cleanup pass: the raw output of the external
process listing (`none` models its failure), the per-pid environment
blocks, working directories and lease-file contents, the environment
switches, the session/layout evidence at the interface at which
`build_active_sets` and `build_active_pane_map` deliver it (the layout
text parsing itself feeds the engine only through these sets), the
telemetry tree, and whether the `os.remove` attempt on each snapshot
file would succeed (`removeOk session file = false` models a raised
`FileNotFoundError` or other exception). -/
structure Inputs where
  psOutput : Option String
  envOf : Int → List (String × String)
  cwdOf : Int → String
  leaseRead : String → Option String
  extraMatch : String → Bool
  sessionsRaw : String
  currentSession : String
  paneStrict : Bool
  requireActiveSignals : Bool
  skipIfNoSessions : Bool
  minAgeRaw : String
  allSessions : List String
  activeCommands : List String
  agentCwds : List String
  expectedCwds : List (String × Nat)
  expectedIds : List (String × Nat)
  activePanes : List (String × List String)
  myPid : Int
  telemetry : List (String × List SnapFile)
  removeOk : String → String → Bool

def procsOf (I : Inputs) : List (Int × ProcInfo) :=
  (get_process_map I.psOutput).1

def childPairsOf (I : Inputs) : List (Int × Int) :=
  (get_process_map I.psOutput).2

/-- `min_process_age_secs = env_int("AOC_CLEANUP_MIN_PROCESS_AGE_SECS", 0, 0)`
(`core.py` line 143). -/
def minAgeOf (I : Inputs) : Int :=
  (env_int I.minAgeRaw 0 0).1

def sessionFilterOf (I : Inputs) : Option (List String) :=
  parse_session_filter I.sessionsRaw I.currentSession

/-- The `active_sessions` computation (`core.py` lines 666-677). -/
def activeSessionsOf (I : Inputs) : List String :=
  match sessionFilterOf I with
  | none => I.allSessions
  | some f =>
    if !f.isEmpty then
      if !I.allSessions.isEmpty then
        let inter := I.allSessions.filter (fun s => f.contains s)
        if !inter.isEmpty then inter else f
      else f
    else []

def haveActiveSignalsOf (I : Inputs) : Bool :=
  !I.activeCommands.isEmpty || !I.agentCwds.isEmpty
    || !I.expectedCwds.isEmpty || !I.expectedIds.isEmpty

def paneLayoutSignalsOf (I : Inputs) : Bool :=
  !I.expectedCwds.isEmpty || !I.expectedIds.isEmpty || !I.activePanes.isEmpty

def zellijRootsOf (I : Inputs) : Finset Int :=
  ((procsOf I).filterMap (fun pr => if pr.2.comm == "zellij" then some pr.1 else none)).toFinset

/-- The safe-pid set (`core.py` lines 690-710): descendants of the
session-manager roots, the visible ancestor chain of the tool pid, and
the descendants of detached secondary-multiplexer servers bound to a
socket named inside the safe tree. -/
def safePidsOf (I : Inputs) : Finset Int :=
  let base := getDescendants (childPairsOf I) (zellijRootsOf I)
  let withAnc := ancestorWalk (procsOf I) ((procsOf I).length + 1) I.myPid base
  let socks := find_safe_tmux_sockets withAnc (procsOf I)
  if socks = ∅ then withAnc
  else withAnc ∪ getDescendants (childPairsOf I) (find_tmux_servers_for_sockets socks (procsOf I))

def agentCandidatesOf (I : Inputs) : List Candidate :=
  (procsOf I).filterMap (fun pr => mkCandidate I.extraMatch I.envOf I.cwdOf I.leaseRead pr.1 pr.2)

def keepPidsOfI (I : Inputs) : Finset Int :=
  keepPidsSel I.paneStrict (paneLayoutSignalsOf I) (agentCandidatesOf I)
    (activeSessionsOf I) I.expectedCwds I.expectedIds

def keepTreeOfI (I : Inputs) : Finset Int :=
  keepTreeOfSets (childPairsOf I) (keepPidsOfI I)

def ctxOf (I : Inputs) : Ctx :=
  { filterIsSome := (sessionFilterOf I).isSome
  , activeSessions := activeSessionsOf I
  , activePanes := I.activePanes
  , paneStrict := I.paneStrict
  , paneLayoutSignals := paneLayoutSignalsOf I
  , safePids := safePidsOf I
  , keepTree := keepTreeOfI I
  , haveActiveSignals := haveActiveSignalsOf I
  , activeCommands := I.activeCommands
  , agentCwds := I.agentCwds
  , minAge := minAgeOf I
  , envOf := I.envOf }

/-- The skip-if-no-sessions early return (`core.py` lines 661-665). -/
def earlyExit1 (I : Inputs) : Bool :=
  I.skipIfNoSessions && I.allSessions.isEmpty

/-- The require-active-signals early return (`core.py` lines 738-742). -/
def earlyExit2 (I : Inputs) : Bool :=
  I.requireActiveSignals && !haveActiveSignalsOf I

def killListOf (I : Inputs) : List (Int × String) :=
  if earlyExit1 I || earlyExit2 I then [] else killEntries (ctxOf I) (agentCandidatesOf I)

def skippedYoungOf (I : Inputs) : Nat :=
  if earlyExit1 I || earlyExit2 I then 0
  else (agentCandidatesOf I).countP (fun c => decide (decideOutcome (ctxOf I) c = Outcome.young))

def skippedPaneMissOf (I : Inputs) : Nat :=
  if earlyExit1 I || earlyExit2 I then 0
  else (agentCandidatesOf I).countP (fun c => decide (decideOutcome (ctxOf I) c = Outcome.paneMiss))

def pruneEligibleOf (I : Inputs) : List (String × String) :=
  if earlyExit1 I || earlyExit2 I then []
  else pruneEligible I.activePanes (activeSessionsOf I) (sessionFilterOf I).isSome
    I.envOf I.telemetry

/-- A termination signal the pass sends. -/
inductive SigKind
  | sigterm
  | sigkill
deriving DecidableEq, Repr

/-- The observable result of one cleanup pass: the computed sets, the
kill list and skip counters as reported, the signals actually issued,
and the snapshot files actually deleted. -/
structure CleanupResult where
  earlyExit : Bool
  safePids : Finset Int
  keepPids : Finset Int
  keepTree : Finset Int
  killList : List (Int × String)
  skippedYoung : Nat
  skippedPaneMiss : Nat
  signals : List (SigKind × Int)
  prunedCount : Nat
  removedPaths : List (String × String)

/-- The pruned count and the removed files of one pass (`core.py`
lines 519-530): in dry-run mode every eligible file is counted and none
removed; in execute mode each eligible file is removed and counted only
when its `os.remove` attempt succeeds — a raised exception skips both
the removal and the count increment. -/
def prunedRemoved (I : Inputs) (dryRun : Bool) : Nat × List (String × String) :=
  if dryRun then ((pruneEligibleOf I).length, [])
  else
    let removed := (pruneEligibleOf I).filter (fun pr => I.removeOk pr.1 pr.2)
    (removed.length, removed)

/-- Model of `run_cleanup()` (`core.py` lines 653-1039).  `dryRun` is
the module-level `dry_run` switch.  In execute mode every kill-list pid
receives the graceful signal and then, after the grace pause, the
forceful signal (a disappeared process only silences the error, the
signal is still issued); in dry-run mode no signal is sent and no
snapshot removed. -/
def runCleanup (I : Inputs) (dryRun : Bool) : CleanupResult :=
  { earlyExit := earlyExit1 I || earlyExit2 I
  , safePids := if earlyExit1 I then ∅ else safePidsOf I
  , keepPids := if earlyExit1 I || earlyExit2 I then ∅ else keepPidsOfI I
  , keepTree := if earlyExit1 I || earlyExit2 I then ∅ else keepTreeOfI I
  , killList := killListOf I
  , skippedYoung := skippedYoungOf I
  , skippedPaneMiss := skippedPaneMissOf I
  , signals :=
      if dryRun then []
      else (killListOf I).map (fun pr => (SigKind.sigterm, pr.1))
        ++ (killListOf I).map (fun pr => (SigKind.sigkill, pr.1))
  , prunedCount := (prunedRemoved I dryRun).1
  , removedPaths := (prunedRemoved I dryRun).2 }

/-! ### Helper lemmas -/

theorem filterMap_key_sublist {α β γ : Type} (l : List α) (f : α → Option β)
    (k : β → γ) (g : α → γ) (h : ∀ a b, f a = some b → k b = g a) :
    ((l.filterMap f).map k).Sublist (l.map g) := by
  induction l with
  | nil => simp
  | cons a t ih =>
    cases hfa : f a with
    | none =>
      rw [List.filterMap_cons_none hfa, List.map_cons]
      exact ih.cons (g a)
    | some b =>
      rw [List.filterMap_cons_some hfa, List.map_cons, List.map_cons, h a b hfa]
      exact ih.cons₂ (g a)

theorem keys_dictUpd (d : List (Int × ProcInfo)) (k : Int) (v : ProcInfo) :
    (dictUpd d k v).map Prod.fst =
      if k ∈ d.map Prod.fst then d.map Prod.fst else d.map Prod.fst ++ [k] := by
  induction d with
  | nil => simp [dictUpd]
  | cons a t ih =>
    obtain ⟨k0, v0⟩ := a
    by_cases hk : k0 = k
    · subst hk
      simp [dictUpd]
    · simp only [dictUpd, if_neg hk, List.map_cons, ih]
      by_cases hm : k ∈ t.map Prod.fst
      · simp [hm, Ne.symm hk]
      · simp [hm, Ne.symm hk]

theorem nodup_keys_dictUpd (d : List (Int × ProcInfo)) (k : Int) (v : ProcInfo)
    (h : (d.map Prod.fst).Nodup) : ((dictUpd d k v).map Prod.fst).Nodup := by
  rw [keys_dictUpd]
  by_cases hm : k ∈ d.map Prod.fst
  · simpa [hm] using h
  · simp [hm, List.nodup_append, h]

theorem nodup_keys_foldl (rows : List (Int × ProcInfo)) :
    ∀ d : List (Int × ProcInfo), (d.map Prod.fst).Nodup →
      (((rows.foldl (fun d pr => dictUpd d pr.1 pr.2) d)).map Prod.fst).Nodup := by
  induction rows with
  | nil => intro d h; simpa using h
  | cons r t ih =>
    intro d h
    exact ih _ (nodup_keys_dictUpd d r.1 r.2 h)

theorem nodup_keys_buildDict (rows : List (Int × ProcInfo)) :
    ((buildDict rows).map Prod.fst).Nodup :=
  nodup_keys_foldl rows [] (by simp)

theorem procs_keys_nodup (I : Inputs) : ((procsOf I).map Prod.fst).Nodup := by
  rcases h : I.psOutput with _ | out
  · simp [procsOf, get_process_map, h]
  · simpa [procsOf, get_process_map, h] using nodup_keys_buildDict _

theorem mkCandidate_pid {extra : String → Bool} {envOf : Int → List (String × String)}
    {cwdOf : Int → String} {leaseRead : String → Option String} {pid : Int}
    {info : ProcInfo} {c : Candidate}
    (h : mkCandidate extra envOf cwdOf leaseRead pid info = some c) : c.pid = pid := by
  unfold mkCandidate at h
  split at h
  · split at h
    · exact absurd h (by simp)
    · split at h
      · exact absurd h (by simp)
      · simp only [Option.some.injEq] at h
        subst h
        rfl
  · exact absurd h (by simp)

theorem agentCandidates_pid_sublist (I : Inputs) :
    ((agentCandidatesOf I).map Candidate.pid).Sublist ((procsOf I).map Prod.fst) := by
  unfold agentCandidatesOf
  exact filterMap_key_sublist _ _ _ _ (fun pr c h => mkCandidate_pid h)

theorem agentCandidates_pid_nodup (I : Inputs) :
    ((agentCandidatesOf I).map Candidate.pid).Nodup :=
  (agentCandidates_pid_sublist I).nodup (procs_keys_nodup I)

theorem killEntries_pid_sublist (ctx : Ctx) (cands : List Candidate) :
    ((killEntries ctx cands).map Prod.fst).Sublist (cands.map Candidate.pid) := by
  unfold killEntries
  apply filterMap_key_sublist
  intro c pr h
  split at h
  · cases h
    rfl
  · exact absurd h (by simp)

theorem mem_killEntries_of_kill {ctx : Ctx} {cands : List Candidate} {c : Candidate}
    (hc : c ∈ cands) (hk : decideOutcome ctx c = Outcome.kill) :
    (c.pid, c.args) ∈ killEntries ctx cands := by
  unfold killEntries
  exact List.mem_filterMap.mpr ⟨c, hc, by simp [hk]⟩

theorem exists_of_mem_killEntries {ctx : Ctx} {cands : List Candidate} {p : Int}
    (hp : p ∈ (killEntries ctx cands).map Prod.fst) :
    ∃ c ∈ cands, decideOutcome ctx c = Outcome.kill ∧ c.pid = p := by
  obtain ⟨pr, hpr, hfst⟩ := List.mem_map.mp hp
  obtain ⟨c, hc, hfc⟩ := List.mem_filterMap.mp hpr
  refine ⟨c, hc, ?_, ?_⟩
  · by_cases h : decideOutcome ctx c = Outcome.kill
    · exact h
    · rw [if_neg h] at hfc
      exact absurd hfc (by simp)
  · by_cases h : decideOutcome ctx c = Outcome.kill
    · rw [if_pos h] at hfc
      cases hfc
      exact hfst
    · rw [if_neg h] at hfc
      exact absurd hfc (by simp)

theorem ancestorWalk_acc_subset (procs : List (Int × ProcInfo)) :
    ∀ (fuel : Nat) (curr : Int) (acc : Finset Int), acc ⊆ ancestorWalk procs fuel curr acc := by
  intro fuel
  induction fuel with
  | zero =>
    intro curr acc
    simp [ancestorWalk]
  | succ n ih =>
    intro curr acc
    cases h : lookupProc procs curr with
    | none => simp [ancestorWalk, h]
    | some info =>
      simp only [ancestorWalk, h]
      exact (Finset.subset_insert _ _).trans (ih info.ppid (insert curr acc))

theorem chain_mem_ancestorWalk (procs : List (Int × ProcInfo)) :
    ∀ (fuel : Nat) (curr : Int) (acc : Finset Int) (a : Int),
      a ∈ chainList procs fuel curr → a ∈ ancestorWalk procs fuel curr acc := by
  intro fuel
  induction fuel with
  | zero =>
    intro curr acc a ha
    simp [chainList] at ha
  | succ n ih =>
    intro curr acc a ha
    cases h : lookupProc procs curr with
    | none => simp [chainList, h] at ha
    | some info =>
      simp only [chainList, h] at ha
      simp only [ancestorWalk, h]
      rcases List.mem_cons.mp ha with rfl | ha2
      · exact ancestorWalk_acc_subset procs n info.ppid (insert a acc) (Finset.mem_insert_self a acc)
      · exact ih info.ppid (insert curr acc) a ha2

theorem lookupProc_isSome_of_mem {procs : List (Int × ProcInfo)} {p : Int}
    (h : p ∈ procs.map Prod.fst) : (lookupProc procs p).isSome := by
  obtain ⟨pr, hpr, hfst⟩ := List.mem_map.mp h
  unfold lookupProc
  rw [Option.isSome_map']
  rw [List.find?_isSome]
  exact ⟨pr, hpr, by simp [hfst]⟩

theorem walk_subset_safePids (I : Inputs) :
    ancestorWalk (procsOf I) ((procsOf I).length + 1) I.myPid
      (getDescendants (childPairsOf I) (zellijRootsOf I)) ⊆ safePidsOf I := by
  unfold safePidsOf
  dsimp only
  split
  · exact Finset.Subset.refl _
  · exact Finset.subset_union_left

theorem decideOutcome_ne_kill_of_pane_match (ctx : Ctx) (c : Candidate)
    (hm : proc_matches_active_pane c ctx.activePanes = true)
    (hl : c.paneInstanceId = "" ∨ c.paneInstanceMatch = true) :
    decideOutcome ctx c ≠ Outcome.kill := by
  unfold decideOutcome
  by_cases h1 : (ctx.filterIsSome = true ∧ ¬c.session = "") ∧ c.session ∉ ctx.activeSessions
  · simp [h1]
  · have h2 : ¬(¬c.paneInstanceId = "" ∧ c.paneInstanceMatch = false) := by
      rcases hl with hl | hl <;> simp [hl]
    simp [h1, h2, hm]

theorem decideOutcome_kill_of_lease (ctx : Ctx) (c : Candidate)
    (hid : c.paneInstanceId ≠ "") (hmm : c.paneInstanceMatch = false)
    (hfil : ¬((ctx.filterIsSome = true ∧ ¬c.session = "") ∧ c.session ∉ ctx.activeSessions)) :
    decideOutcome ctx c = Outcome.kill := by
  unfold decideOutcome
  simp [hfil, hid, hmm]

theorem decideOutcome_kill_cases (ctx : Ctx) (c : Candidate)
    (hfil : ctx.filterIsSome = false)
    (hstrict : ¬(ctx.paneStrict = true ∧ ctx.paneLayoutSignals = true))
    (hage : ctx.minAge ≤ 0)
    (hk : decideOutcome ctx c = Outcome.kill) :
    (c.paneInstanceId ≠ "" ∧ c.paneInstanceMatch = false)
      ∨ (c.pid ∉ ctx.safePids ∧ c.pid ∉ ctx.keepTree) := by
  unfold decideOutcome at hk
  by_cases h2 : ¬c.paneInstanceId = "" ∧ c.paneInstanceMatch = false
  · exact Or.inl h2
  · right
    have hst2 : ctx.paneStrict = false ∨ ctx.paneLayoutSignals = false := by
      by_cases hp : ctx.paneStrict = true
      · by_cases hq : ctx.paneLayoutSignals = true
        · exact absurd ⟨hp, hq⟩ hstrict
        · exact Or.inr (Bool.eq_false_iff.mpr hq)
      · exact Or.inl (Bool.eq_false_iff.mpr hp)
    constructor
    · intro hsafe
      by_cases h3 : proc_matches_active_pane c ctx.activePanes = true
      · simp [hfil, h2, h3] at hk
      · by_cases h4 : (¬c.session = "" ∧ ¬c.paneId = "")
            ∧ (lookupAssoc ctx.activePanes c.session).isSome = true
        · simp [hfil, h2, h3, h4, hstrict, hage] at hk
        · simp [hfil, h2, h3, h4, hstrict, hst2, hage, hsafe] at hk
    · intro hkeep
      by_cases h3 : proc_matches_active_pane c ctx.activePanes = true
      · simp [hfil, h2, h3] at hk
      · by_cases h4 : (¬c.session = "" ∧ ¬c.paneId = "")
            ∧ (lookupAssoc ctx.activePanes c.session).isSome = true
        · simp [hfil, h2, h3, h4, hstrict, hage] at hk
        · simp [hfil, h2, h3, h4, hstrict, hst2, hage, hkeep] at hk

theorem runCleanup_killList (I : Inputs) (d : Bool) :
    (runCleanup I d).killList = killListOf I := rfl

theorem runCleanup_safePids (I : Inputs) (d : Bool) :
    (runCleanup I d).safePids = if earlyExit1 I then ∅ else safePidsOf I := rfl

theorem runCleanup_keepTree (I : Inputs) (d : Bool) :
    (runCleanup I d).keepTree =
      if earlyExit1 I || earlyExit2 I then ∅ else keepTreeOfI I := rfl

theorem runCleanup_earlyExit (I : Inputs) (d : Bool) :
    (runCleanup I d).earlyExit = (earlyExit1 I || earlyExit2 I) := rfl

/-! ### Concrete runs used by counterexamples and witnesses -/

/-- A process listing with one agent process (pid 42, command `claude`)
whose environment records session `s`, pane `p`, a pane-instance id and
a lease file. -/
def psTextLease : String :=
  "  PID  PPID ETIMES TTY COMMAND ARGS\n   42     1 100 ? claude claude"

/-- A run in which the pid-42 candidate exactly matches live pane
(`s`, `p`) of the active-pane index while its lease file names a
different owner. -/
def paneLeaseInput : Inputs :=
  { psOutput := some psTextLease
  , envOf := fun pid => if pid = 42 then
      [("AOC_SESSION_ID", "s"), ("AOC_PANE_ID", "p"),
       ("AOC_PANE_INSTANCE_ID", "i"), ("AOC_PANE_LEASE_FILE", "/lease")]
      else []
  , cwdOf := fun _ => ""
  , leaseRead := fun f => if f = "/lease" then some "j" else none
  , extraMatch := fun _ => false
  , sessionsRaw := ""
  , currentSession := ""
  , paneStrict := false
  , requireActiveSignals := false
  , skipIfNoSessions := false
  , minAgeRaw := ""
  , allSessions := ["s"]
  , activeCommands := []
  , agentCwds := []
  , expectedCwds := []
  , expectedIds := []
  , activePanes := [("s", ["p"])]
  , myPid := 999
  , telemetry := []
  , removeOk := fun _ _ => true }

/-- The same run with the lease file naming the candidate itself. -/
def leaseOkInput : Inputs :=
  { paneLeaseInput with leaseRead := fun f => if f = "/lease" then some "i" else none }

/-- Claim C1, counterexample: the pid-42 candidate of `paneLeaseInput`
exactly matches live pane (`s`, `p`) of the active-pane index, yet its
pid is on the kill list, because the lease-instance mismatch rule fires
before the live-pane retention rule. -/
theorem C1_counterexample :
    proc_matches_active_pane (agentCandidatesOf paneLeaseInput).headI
        paneLeaseInput.activePanes = true
      ∧ ((agentCandidatesOf paneLeaseInput).headI).pid = 42
      ∧ (runCleanup paneLeaseInput false).killList.map Prod.fst = [42] := by
  refine ⟨by decide, by decide, by decide⟩

/-- Claim C1, amended: an agent candidate whose recorded
(session, pane id) pair exactly matches a live pane in the active-pane
index, and whose lease check did not flag a mismatch (no pane-instance
id, or a matching lease), never appears on the kill list. -/
theorem C1_amended (I : Inputs) (d : Bool) (c : Candidate)
    (hc : c ∈ agentCandidatesOf I)
    (hm : proc_matches_active_pane c I.activePanes = true)
    (hl : c.paneInstanceId = "" ∨ c.paneInstanceMatch = true) :
    c.pid ∉ (runCleanup I d).killList.map Prod.fst := by
  intro hp
  rw [runCleanup_killList] at hp
  unfold killListOf at hp
  split at hp
  · simp at hp
  · obtain ⟨c2, hc2, hk2, hpid2⟩ := exists_of_mem_killEntries hp
    have hcc : c2 = c := List.inj_on_of_nodup_map (agentCandidates_pid_nodup I) hc2 hc hpid2
    subst hcc
    exact decideOutcome_ne_kill_of_pane_match (ctxOf I) c2 hm hl hk2

/-- Claim C1, witness: with a matching lease, the same pane-matching
candidate of pid 42 stays off the kill list. -/
theorem C1_witness :
    ((agentCandidatesOf leaseOkInput).headI).pid ∉
      (runCleanup leaseOkInput false).killList.map Prod.fst :=
  C1_amended leaseOkInput false _ (by decide) (by decide) (Or.inr (by decide))

/-- The run of `paneLeaseInput` under a session filter selecting only
session `other`: the pid-42 candidate (session `s`) is excluded by the
filter before the lease rule can fire. -/
def filteredLeaseInput : Inputs :=
  { paneLeaseInput with sessionsRaw := "other", allSessions := ["other"] }

/-- Claim C2, counterexample: a candidate with a pane-instance id and a
flagged lease mismatch is not placed on the kill list when the
excluded-session filter retains it first (rule 1 precedes rule 2). -/
theorem C2_counterexample :
    ((agentCandidatesOf filteredLeaseInput).headI).paneInstanceId ≠ ""
      ∧ ((agentCandidatesOf filteredLeaseInput).headI).paneInstanceMatch = false
      ∧ (runCleanup filteredLeaseInput false).killList = [] := by
  refine ⟨by decide, by decide, by decide⟩

/-- Claim C2, amended: an agent candidate that carries a pane-instance
id and whose lease check flagged a mismatch is placed on the kill list —
regardless of safe-pid or keep-tree membership — provided the
excluded-session filter does not retain it first and the run did not
exit early. -/
theorem C2_amended (I : Inputs) (d : Bool) (c : Candidate)
    (hc : c ∈ agentCandidatesOf I)
    (hid : c.paneInstanceId ≠ "")
    (hmm : c.paneInstanceMatch = false)
    (hfil : ¬(((sessionFilterOf I).isSome = true ∧ ¬c.session = "")
        ∧ c.session ∉ activeSessionsOf I))
    (hex : (runCleanup I d).earlyExit = false) :
    c.pid ∈ (runCleanup I d).killList.map Prod.fst := by
  rw [runCleanup_killList]
  unfold killListOf
  rw [runCleanup_earlyExit] at hex
  simp only [hex, Bool.false_eq_true, if_false]
  have hk := decideOutcome_kill_of_lease (ctxOf I) c hid hmm hfil
  exact List.mem_map.mpr ⟨(c.pid, c.args), mem_killEntries_of_kill hc hk, rfl⟩

/-- Claim C2, witness: in the unfiltered run `paneLeaseInput`, the
lease-mismatch candidate is killed. -/
theorem C2_witness :
    ((agentCandidatesOf paneLeaseInput).headI).pid ∈
      (runCleanup paneLeaseInput false).killList.map Prod.fst :=
  C2_amended paneLeaseInput false _ (by decide) (by decide) (by decide) (by decide) (by decide)

/-- A listing with a session-manager root (pid 10, `zellij`) and an
agent child (pid 20, `claude`) whose lease file is unreadable: pid 20 is
inside the safe tree yet killed by the lease rule. -/
def psTextSafeLease : String :=
  "  PID  PPID ETIMES TTY COMMAND ARGS\n   10     1 500 ? zellij zellij\n   20    10 100 ? claude claude"

def safeLeaseInput : Inputs :=
  { paneLeaseInput with
      psOutput := some psTextSafeLease
    , envOf := fun pid => if pid = 20 then
        [("AOC_PANE_INSTANCE_ID", "i"), ("AOC_PANE_LEASE_FILE", "/lease")]
        else []
    , leaseRead := fun _ => none
    , activePanes := [] }

/-- Claim C4, counterexample: the kill list is not disjoint from the
safe-pid set — pid 20 is a descendant of the session-manager root and
still killed for its lease-instance mismatch. -/
theorem C4_counterexample :
    (20 : Int) ∈ (runCleanup safeLeaseInput false).killList.map Prod.fst
      ∧ (20 : Int) ∈ (runCleanup safeLeaseInput false).safePids := by
  refine ⟨by decide, by decide⟩

/-- Claim C4, amended: with no session filter, outside pane-strict
override, and with the minimum-age switch at its default 0, any kill
whose pid lies in the safe-pid set or in the keep tree can only be a
lease-instance-mismatch kill; every other killed pid is outside both
sets. -/
theorem C4_amended (I : Inputs) (d : Bool)
    (hfil : sessionFilterOf I = none)
    (hstrict : ¬(I.paneStrict = true ∧ paneLayoutSignalsOf I = true))
    (hage : minAgeOf I ≤ 0)
    (p : Int)
    (hp : p ∈ (runCleanup I d).killList.map Prod.fst)
    (hin : p ∈ (runCleanup I d).safePids ∨ p ∈ (runCleanup I d).keepTree) :
    ∃ c ∈ agentCandidatesOf I, c.pid = p
      ∧ c.paneInstanceId ≠ "" ∧ c.paneInstanceMatch = false := by
  rw [runCleanup_killList] at hp
  unfold killListOf at hp
  split at hp
  · simp at hp
  · rename_i hex
    obtain ⟨c, hc, hk, hpid⟩ := exists_of_mem_killEntries hp
    have hfil2 : (ctxOf I).filterIsSome = false := by simp [ctxOf, hfil]
    rcases decideOutcome_kill_cases (ctxOf I) c hfil2 hstrict hage hk with hcase | ⟨hsafe, hkeep⟩
    · exact ⟨c, hc, hpid, hcase.1, hcase.2⟩
    · exfalso
      have he : (earlyExit1 I || earlyExit2 I) = false := by
        revert hex
        cases earlyExit1 I || earlyExit2 I <;> simp
      have he1 : earlyExit1 I = false := by
        revert he
        cases earlyExit1 I <;> simp
      rw [runCleanup_safePids, runCleanup_keepTree] at hin
      rcases hin with hin | hin
      · rw [he1] at hin
        simp only [Bool.false_eq_true, if_false] at hin
        exact hsafe (hpid ▸ hin)
      · rw [he] at hin
        simp only [Bool.false_eq_true, if_false] at hin
        exact hkeep (hpid ▸ hin)

/-- Claim C4, witness: the hypotheses of the amended claim are
satisfiable — in `safeLeaseInput` the safe pid 20 is killed, and the
amended claim forces it to be a lease-mismatch kill. -/
theorem C4_witness :
    ∃ c ∈ agentCandidatesOf safeLeaseInput, c.pid = 20
      ∧ c.paneInstanceId ≠ "" ∧ c.paneInstanceMatch = false :=
  C4_amended safeLeaseInput false (by decide) (by decide) (by decide) 20
    (by decide) (Or.inl (by decide))

/-- A run over a header-only (hence empty) process table, the tool
running as pid 7. -/
def emptyTableInput : Inputs :=
  { paneLeaseInput with
      psOutput := some "  PID  PPID ETIMES TTY COMMAND ARGS"
    , myPid := 7 }

/-- Claim C3, counterexample: on an empty process table the computed
safe-pid set does not contain the tool pid — the ancestor loop only adds
pids while they are visible in the table, and pid 7 is not. -/
theorem C3_counterexample :
    procsOf emptyTableInput = []
      ∧ (7 : Int) ∉ (runCleanup emptyTableInput false).safePids := by
  refine ⟨by decide, by decide⟩

/-- Claim C3, amended: for every process table, the computed safe-pid
set contains the tool pid whenever that pid is visible in the table, and
every pid of the visible ancestor chain of the tool pid (the chain
followed through parent links while it stays inside the table). -/
theorem C3_amended (I : Inputs) (d : Bool)
    (hskip : earlyExit1 I = false) :
    (I.myPid ∈ (procsOf I).map Prod.fst → I.myPid ∈ (runCleanup I d).safePids)
      ∧ ∀ a ∈ chainList (procsOf I) ((procsOf I).length + 1) I.myPid,
          a ∈ (runCleanup I d).safePids := by
  have hsafe : (runCleanup I d).safePids = safePidsOf I := by
    rw [runCleanup_safePids, hskip]
    simp
  constructor
  · intro hmem
    obtain ⟨info, hinfo⟩ := Option.isSome_iff_exists.mp (lookupProc_isSome_of_mem hmem)
    have hchain : I.myPid ∈ chainList (procsOf I) ((procsOf I).length + 1) I.myPid := by
      simp [chainList, hinfo]
    rw [hsafe]
    exact walk_subset_safePids I (chain_mem_ancestorWalk _ _ _ _ _ hchain)
  · intro a ha
    rw [hsafe]
    exact walk_subset_safePids I (chain_mem_ancestorWalk _ _ _ _ _ ha)

/-- A run in which the tool pid 5 is a visible table row whose parent 3
is outside the table. -/
def ownPidInput : Inputs :=
  { paneLeaseInput with
      psOutput := some "  PID  PPID ETIMES TTY COMMAND ARGS\n    5     3 10 ? bash bash"
    , myPid := 5 }

/-- Claim C3, witness: the tool pid 5, visible in the table, lands in
the safe-pid set. -/
theorem C3_witness :
    (5 : Int) ∈ (runCleanup ownPidInput false).safePids :=
  (C3_amended ownPidInput false (by decide)).1 (by decide)

theorem preferPool_subset (pool : List Candidate) :
    ∀ c ∈ preferPool pool, c ∈ pool := by
  intro c hc
  simp only [preferPool] at hc
  split_ifs at hc
  · simpa using List.mem_of_mem_filter hc
  · simpa using List.mem_of_mem_filter hc
  · simpa using hc

theorem preferPool_pairwise (pool : List Candidate) :
    (preferPool pool).Pairwise pidGeR := by
  have hs : (List.insertionSort pidGeR pool).Pairwise pidGeR :=
    List.sorted_insertionSort pidGeR pool
  simp only [preferPool]
  split_ifs
  · exact List.Pairwise.sublist (List.filter_sublist _) hs
  · exact List.Pairwise.sublist (List.filter_sublist _) hs
  · exact hs

theorem preferPool_bins (pool : List Candidate)
    (hex : ∃ c ∈ pool, c.kind = Kind.agent_bin) :
    ∀ c ∈ preferPool pool, c.kind = Kind.agent_bin := by
  obtain ⟨b, hb, hkb⟩ := hex
  intro c hc
  have hbin : b ∈ (List.insertionSort pidGeR pool).filter
      (fun c => c.kind == Kind.agent_bin) := by
    simp [List.mem_filter, hkb, hb]
  have hemp : ((List.insertionSort pidGeR pool).filter
      (fun c => c.kind == Kind.agent_bin)).isEmpty = false := by
    cases h : ((List.insertionSort pidGeR pool).filter
        (fun c => c.kind == Kind.agent_bin)).isEmpty
    · rfl
    · rw [List.isEmpty_iff] at h
      rw [h] at hbin
      simp at hbin
  simp only [preferPool, hemp, Bool.not_false, if_true] at hc
  have := List.mem_filter.mp hc
  simpa using this.2

theorem preferPool_nodes (pool : List Candidate)
    (hnb : ¬∃ c ∈ pool, c.kind = Kind.agent_bin)
    (hex : ∃ c ∈ pool, c.kind = Kind.agent_node) :
    ∀ c ∈ preferPool pool, c.kind = Kind.agent_node := by
  obtain ⟨b, hb, hkb⟩ := hex
  intro c hc
  have hbemp : ((List.insertionSort pidGeR pool).filter
      (fun c => c.kind == Kind.agent_bin)).isEmpty = true := by
    rw [List.isEmpty_iff, List.filter_eq_nil_iff]
    intro a ha hka
    exact hnb ⟨a, by simpa using ha, by simpa using hka⟩
  have hnode : b ∈ (List.insertionSort pidGeR pool).filter
      (fun c => c.kind == Kind.agent_node) := by
    simp [List.mem_filter, hkb, hb]
  have hnemp : ((List.insertionSort pidGeR pool).filter
      (fun c => c.kind == Kind.agent_node)).isEmpty = false := by
    cases h : ((List.insertionSort pidGeR pool).filter
        (fun c => c.kind == Kind.agent_node)).isEmpty
    · rfl
    · rw [List.isEmpty_iff] at h
      rw [h] at hnode
      simp at hnode
  simp only [preferPool, hbemp, hnemp, Bool.not_true, Bool.not_false, if_false, if_true] at hc
  have := List.mem_filter.mp hc
  simpa using this.2

/-- Claim C5, amended: for each directory hint `d` with expected count
`N`, the selection made on behalf of `d` keeps at most `N` candidates,
all matching `d`; when the matching pool contains an `agent_bin`
candidate only `agent_bin` candidates are kept, when it contains no
`agent_bin` but an `agent_node` candidate only `agent_node` candidates
are kept (any candidate otherwise), and within the preferred pool the
kept candidates have the highest pids.  A candidate matching `d` can
nevertheless also be kept on behalf of a different, overlapping hint,
which is what refutes the claim as stated. -/
theorem C5_amended (cands : List Candidate) (hint : String) (n : Nat) :
    (dirKeepFor cands hint n).length ≤ n
      ∧ (∀ c ∈ dirKeepFor cands hint n, cwd_matches c.cwd hint = true)
      ∧ ((∃ c ∈ dirPool cands hint, c.kind = Kind.agent_bin) →
          ∀ c ∈ dirKeepFor cands hint n, c.kind = Kind.agent_bin)
      ∧ ((¬∃ c ∈ dirPool cands hint, c.kind = Kind.agent_bin) →
          (∃ c ∈ dirPool cands hint, c.kind = Kind.agent_node) →
          ∀ c ∈ dirKeepFor cands hint n, c.kind = Kind.agent_node)
      ∧ (∀ c ∈ dirKeepFor cands hint n, ∀ c2 ∈ preferPool (dirPool cands hint),
          c2 ∉ dirKeepFor cands hint n → c2.pid ≤ c.pid) := by
  refine ⟨?_, ?_, ?_, ?_, ?_⟩
  · unfold dirKeepFor
    rw [List.length_take]
    omega
  · intro c hc
    have h1 : c ∈ preferPool (dirPool cands hint) := List.take_subset _ _ hc
    have h2 : c ∈ dirPool cands hint := preferPool_subset _ c h1
    exact (List.mem_filter.mp h2).2
  · intro hex c hc
    exact preferPool_bins _ hex c (List.take_subset _ _ hc)
  · intro hnb hex c hc
    exact preferPool_nodes _ hnb hex c (List.take_subset _ _ hc)
  · intro c hc c2 hc2 hnc2
    unfold dirKeepFor at hc hnc2
    have hpw : (preferPool (dirPool cands hint)).Pairwise pidGeR := preferPool_pairwise _
    have hsplit := List.take_append_drop n (preferPool (dirPool cands hint))
    rw [← hsplit] at hpw hc2
    rcases List.mem_append.mp hc2 with h | h
    · exact absurd h hnc2
    · exact (List.pairwise_append.mp hpw).2.2 c hc c2 h

/-- A listing with two agent candidates: pid 10 (`gemini-helper`, kind
other, directory `/a/b`) and pid 5 (`claude`, kind agent_bin, directory
`/a`), under the overlapping directory hints `/a` (count 1) and `/a/b`
(count 1). -/
def psTextOverlap : String :=
  "  PID  PPID ETIMES TTY COMMAND ARGS\n   10     1 40 ? gemini-helper gemini-helper\n    5     1 40 ? claude claude"

def overlapHintsInput : Inputs :=
  { paneLeaseInput with
      psOutput := some psTextOverlap
    , envOf := fun _ => []
    , cwdOf := fun pid => if pid = 10 then "/a/b" else if pid = 5 then "/a" else ""
    , leaseRead := fun _ => none
    , activePanes := []
    , expectedCwds := [("/a", 1), ("/a/b", 1)] }

/-- Claim C5, counterexample: with `expected_cwds["/a"] = 1`, two kept
candidates match directory `/a` — pid 5 kept for hint `/a` and pid 10
(directory `/a/b`, which also matches `/a`) kept for hint `/a/b` — so
more than N candidates matching `d` are kept when hints overlap. -/
theorem C5_counterexample :
    ("/a", 1) ∈ overlapHintsInput.expectedCwds
      ∧ overlapHintsInput.paneStrict = false
      ∧ (runCleanup overlapHintsInput false).keepPids = {5, 10}
      ∧ ((agentCandidatesOf overlapHintsInput).filter
          (fun c => decide (c.pid ∈ (runCleanup overlapHintsInput false).keepPids)
            && cwd_matches c.cwd "/a")).length = 2 := by
  refine ⟨by decide, by decide, by decide, by decide⟩

/-- Claim C5, witness: for hint `/a` with count 1 in the overlapping-run
candidate list, the per-hint selection keeps at most one candidate, all
of kind `agent_bin` (the pool contains the `agent_bin` candidate 5). -/
theorem C5_witness :
    (dirKeepFor (agentCandidatesOf overlapHintsInput) "/a" 1).length ≤ 1
      ∧ ∀ c ∈ dirKeepFor (agentCandidatesOf overlapHintsInput) "/a" 1,
          c.kind = Kind.agent_bin := by
  have h := C5_amended (agentCandidatesOf overlapHintsInput) "/a" 1
  exact ⟨h.1, h.2.2.1 (by decide)⟩

/-- The run of `paneLeaseInput` with one stale telemetry snapshot
(`s/x.json`, unreadable JSON) whose `os.remove` attempt fails. -/
def failingRemovalInput : Inputs :=
  { paneLeaseInput with
      telemetry := [("s", [{ name := "x.json", jsonPid := none }])]
    , removeOk := fun _ _ => false }

/-- The same run with the removal attempt succeeding. -/
def okRemovalInput : Inputs :=
  { failingRemovalInput with removeOk := fun _ _ => true }

/-- Claim C6, counterexample: on identical inputs with one eligible
snapshot whose `os.remove` raises, the dry-run pass reports one pruned
snapshot while the execute pass reports zero — the exception path skips
the count increment only in execute mode, so the pruned counts are not
identical. -/
theorem C6_counterexample :
    (runCleanup failingRemovalInput true).prunedCount = 1
      ∧ (runCleanup failingRemovalInput false).prunedCount = 0
      ∧ (runCleanup failingRemovalInput false).removedPaths = [] := by
  refine ⟨by decide, by decide, by decide⟩

/-- Claim C6, amended: on identical inputs, a dry-run pass sends no
termination signal and deletes no snapshot file, and reports the same
kill count as an execute pass; the execute pass removes and counts
exactly the eligible snapshots whose removal attempt succeeds, so the
two pruned counts agree whenever no eligible removal fails. -/
theorem C6_amended (I : Inputs) :
    (runCleanup I true).signals = []
      ∧ (runCleanup I true).removedPaths = []
      ∧ (runCleanup I true).killList.length = (runCleanup I false).killList.length
      ∧ (runCleanup I false).removedPaths =
          (pruneEligibleOf I).filter (fun pr => I.removeOk pr.1 pr.2)
      ∧ ((∀ pr ∈ pruneEligibleOf I, I.removeOk pr.1 pr.2 = true) →
          (runCleanup I true).prunedCount = (runCleanup I false).prunedCount) := by
  refine ⟨rfl, rfl, rfl, rfl, ?_⟩
  intro h
  have hfe : (pruneEligibleOf I).filter (fun pr => I.removeOk pr.1 pr.2) = pruneEligibleOf I :=
    List.filter_eq_self.mpr h
  show (pruneEligibleOf I).length =
    ((pruneEligibleOf I).filter (fun pr => I.removeOk pr.1 pr.2)).length
  rw [hfe]

/-- Claim C6, witness: with the removal succeeding, the dry and execute
passes of the one-snapshot run report equal pruned counts and the dry
pass stays effect-free. -/
theorem C6_witness :
    (runCleanup okRemovalInput true).signals = []
      ∧ (runCleanup okRemovalInput true).prunedCount =
          (runCleanup okRemovalInput false).prunedCount := by
  have h := C6_amended okRemovalInput
  exact ⟨h.1, h.2.2.2.2 (by decide)⟩

/-- Claim C7: when the external process listing fails entirely, the
parsed table and adjacency are empty, no process becomes an agent
candidate, and the kill list is empty. -/
theorem C7_failed_listing (I : Inputs) (d : Bool) (h : I.psOutput = none) :
    procsOf I = []
      ∧ (∀ p, childrenOf (childPairsOf I) p = [])
      ∧ agentCandidatesOf I = []
      ∧ (runCleanup I d).killList = [] := by
  have hp : procsOf I = [] := by simp [procsOf, get_process_map, h]
  have hcp : childPairsOf I = [] := by simp [childPairsOf, get_process_map, h]
  have hc : agentCandidatesOf I = [] := by simp [agentCandidatesOf, hp]
  refine ⟨hp, ?_, hc, ?_⟩
  · intro p
    simp [childrenOf, hcp]
  · rw [runCleanup_killList]
    unfold killListOf
    split
    · rfl
    · simp [killEntries, hc]

def noListingInput : Inputs :=
  { paneLeaseInput with psOutput := none }

/-- Claim C7, witness: a run whose process listing failed parses to an
empty table and kills nothing. -/
theorem C7_witness :
    procsOf noListingInput = [] ∧ (runCleanup noListingInput false).killList = [] := by
  have h := C7_failed_listing noListingInput false rfl
  exact ⟨h.1, h.2.2.2⟩

/-- A run whose only candidate (pid 30, `claude --chat`) records both a
session and a pane id, while the active-pane index is empty and an
active-command hint `claude` is present. -/
def cmdHintInput : Inputs :=
  { paneLeaseInput with
      psOutput := some "  PID  PPID ETIMES TTY COMMAND ARGS\n   30     1 50 ? claude claude --chat"
    , envOf := fun pid => if pid = 30 then
        [("AOC_SESSION_ID", "s"), ("AOC_PANE_ID", "p")] else []
    , cwdOf := fun _ => "/elsewhere"
    , leaseRead := fun _ => none
    , allSessions := []
    , activeCommands := ["claude"]
    , agentCwds := ["/nope"]
    , activePanes := [] }

/-- The same run with the active-command hint removed (directory hints
unchanged, so active signals persist). -/
def cmdHintlessInput : Inputs :=
  { cmdHintInput with activeCommands := [] }

/-- Claim C8, counterexample: the pid-30 candidate has both a session
and a pane id recorded, yet it is retained by the rule-8 active-command
match — with the hint present the kill list is empty, and removing only
the command hint gets pid 30 killed. -/
theorem C8_counterexample :
    ((agentCandidatesOf cmdHintInput).headI).session ≠ ""
      ∧ ((agentCandidatesOf cmdHintInput).headI).paneId ≠ ""
      ∧ activeHit (ctxOf cmdHintInput) (agentCandidatesOf cmdHintInput).headI = true
      ∧ (runCleanup cmdHintInput false).killList = []
      ∧ (runCleanup cmdHintlessInput false).killList.map Prod.fst = [30] := by
  refine ⟨by decide, by decide, by decide, by decide, by decide⟩

/-- Claim C8, amended: for a candidate that records both a session and a
pane id, the rule-8 retention test reduces exactly to the active-command
branch — only the directory-hint branch requires the candidate to lack
its own session+pane identity. -/
theorem C8_amended (ctx : Ctx) (c : Candidate)
    (hs : c.session ≠ "") (hp : c.paneId ≠ "") :
    activeHit ctx c =
      (ctx.haveActiveSignals && !(ctx.paneStrict && ctx.paneLayoutSignals)
        && ctx.activeCommands.any
            (fun cmd => cmd_matches (proc_cmd c.args c.comm) cmd || containsSub c.args cmd)) := by
  unfold activeHit
  simp [hs, hp]

/-- Claim C8, witness: the reduction applied to the pid-30 candidate of
the command-hint run. -/
theorem C8_witness :
    activeHit (ctxOf cmdHintInput) (agentCandidatesOf cmdHintInput).headI =
      ((ctxOf cmdHintInput).haveActiveSignals
        && !((ctxOf cmdHintInput).paneStrict && (ctxOf cmdHintInput).paneLayoutSignals)
        && (ctxOf cmdHintInput).activeCommands.any
            (fun cmd => cmd_matches (proc_cmd ((agentCandidatesOf cmdHintInput).headI).args
                ((agentCandidatesOf cmdHintInput).headI).comm) cmd
              || containsSub ((agentCandidatesOf cmdHintInput).headI).args cmd)) :=
  C8_amended _ _ (by decide) (by decide)

/-- Claim C9: every pid placed on the kill list is a key of the parsed
process table, and no pid occurs twice on the kill list — the engine
never signals an unobserved pid and never signals a pid twice within one
phase. -/
theorem C9_kill_pids (I : Inputs) (d : Bool) :
    ((runCleanup I d).killList.map Prod.fst).Nodup
      ∧ ∀ p ∈ (runCleanup I d).killList.map Prod.fst, p ∈ (procsOf I).map Prod.fst := by
  rw [runCleanup_killList]
  unfold killListOf
  split
  · simp
  · constructor
    · exact ((killEntries_pid_sublist _ _).trans (agentCandidates_pid_sublist I)).nodup
        (procs_keys_nodup I)
    · intro p hp
      exact ((killEntries_pid_sublist _ _).trans (agentCandidates_pid_sublist I)).subset hp

/-- Claim C9, witness: in the `paneLeaseInput` run the kill-list pids
are duplicate-free, and its killed pid 42 is a table key. -/
theorem C9_witness :
    ((runCleanup paneLeaseInput false).killList.map Prod.fst).Nodup
      ∧ (42 : Int) ∈ (procsOf paneLeaseInput).map Prod.fst := by
  have h := C9_kill_pids paneLeaseInput false
  exact ⟨h.1, h.2 42 (by decide)⟩

/-- Claim C10: an environment value of the minimum-process-age switch
that parses as an integer strictly below the minimum 0 makes `env_int`
return the minimum with no warning; the warning (with fallback to the
default) occurs exactly for non-empty values that fail integer
parsing. -/
theorem C10_env_int :
    (∀ raw v, pyInt (pyStrip raw) = some v → v < 0 → env_int raw 0 0 = (0, false))
      ∧ ∀ raw, (env_int raw 0 0).2 = true ↔ (pyStrip raw ≠ "" ∧ pyInt (pyStrip raw) = none) := by
  constructor
  · intro raw v h hneg
    have hr : ¬(pyStrip raw = "") := by
      intro he
      rw [he] at h
      have h0 : pyInt "" = none := rfl
      rw [h0] at h
      cases h
    simp [env_int, hr, h, hneg]
  · intro raw
    by_cases hr : pyStrip raw = ""
    · simp [env_int, hr]
    · cases hpi : pyInt (pyStrip raw) with
      | none => simp [env_int, hr, hpi]
      | some v =>
        rcases lt_or_le v 0 with hv | hv
        · simp [env_int, hr, hpi, hv]
        · simp [env_int, hr, hpi, not_lt.mpr hv]

/-- Claim C10, witness: the value `-7` yields the minimum 0 without a
warning, the value `abc` warns. -/
theorem C10_witness :
    env_int "-7" 0 0 = (0, false) ∧ (env_int "abc" 0 0).2 = true :=
  ⟨C10_env_int.1 "-7" (-7) (by decide) (by decide),
   (C10_env_int.2 "abc").mpr ⟨by decide, by decide⟩⟩

end AocCleanup
